import Mathlib

/-!
Verification of the sprout update/migration core.

Shallow embedding of the Go sources:
  - `Configuration` from src/internal/types/types.go
  - `uPrep`, `CheckForUpdate`, the auto-checker tick, `DeferUpdate`,
    `DetachUpdate` from src/internal/app/update_test.go (the app
    update implementation embedded there, lines 560-780)
  - the lifecycle controller (`SetPostCleanup`, `Close`) from
    src/unnamed/part_007
  - the migration runner from src/unnamed/part_011 and the `Migrate`
    wrapper from src/internal/platform/database/migration.go
  - the `/settings/restart-status` handler from
    src/internal/platform/http/server/server.go

Timestamps are modeled as natural numbers (seconds). Database reads
and writes are modeled as pure state passing; a `db.Update` whose
callback fails aborts the transaction, which is modeled by returning
the original state. The semver comparator is an external library
(golang.org/x/mod/semver), so it is a parameter of the model.
-/

namespace Sprout

/-- The configuration record stored under key "data" in the config
partition. From src/internal/types/types.go. `lastUpdateCheck` is a
timestamp in seconds. -/
structure Configuration where
  logLevel : String
  port : Int
  host : String
  proxyPort : Int
  updateNotifications : Bool
  lastUpdateCheck : Nat
  updateAvailable : Bool
  preUpdateVersion : String
  startCounter : Int
  deriving Repr, DecidableEq

/-- The development sentinel version string (`vX.X.X`). -/
def devSentinel : String := "vX.X.X"

/-- Errors surfaced by the update preparation and launch paths. -/
inductive UpdErr where
  | noVersion
  | devBuild
  | launchFailed (msg : String)
  deriving Repr, DecidableEq

/-- `uPrep` from src/internal/app/update_test.go lines 748-764: reject
an empty or development version, then in one KVS update set
`updateAvailable` to false. (The body writes only `updateAvailable`;
it does not write `preUpdateVersion`.) -/
def uPrep (version : String) (cfg : Configuration) : Except UpdErr Configuration :=
  if version = "" then .error .noVersion
  else if version = devSentinel then .error .devBuild
  else .ok { cfg with updateAvailable := false }

/-- Errors surfaced by `CheckForUpdate`. `devBuild` is a distinct
constructor from `fetchFailed`, so callers can branch on it. -/
inductive CheckErr where
  | noVersion
  | devBuild
  | fetchFailed (msg : String)
  deriving Repr, DecidableEq

instance {ε α : Type} [DecidableEq ε] [DecidableEq α] : DecidableEq (Except ε α) := fun x y =>
  match x, y with
  | .error a, .error b =>
    if h : a = b then .isTrue (by rw [h]) else .isFalse (by simp [h])
  | .error _, .ok _ => .isFalse (by simp)
  | .ok _, .error _ => .isFalse (by simp)
  | .ok a, .ok b =>
    if h : a = b then .isTrue (by rw [h]) else .isFalse (by simp [h])

/-- Result of one `CheckForUpdate` call: the returned value, the
stored configuration afterwards, and whether the release source was
contacted. -/
structure CheckOutcome where
  result : Except CheckErr Bool
  cfg : Configuration
  contactedSource : Bool
  deriving Repr, DecidableEq

/-- `CheckForUpdate` from src/internal/app/update_test.go lines
658-687. `semverCompare` stands for `semver.Compare` from
golang.org/x/mod/semver; `fetch` is the outcome of
`ReleaseSource.GetLatestVersion`; `now` is the current time. On
success the single KVS update writes `updateAvailable` and
`lastUpdateCheck` together. -/
def checkForUpdate (version : String) (semverCompare : String → String → Int)
    (fetch : Except String String) (now : Nat) (cfg : Configuration) : CheckOutcome :=
  if version = "" then ⟨.error .noVersion, cfg, false⟩
  else if version = devSentinel then ⟨.error .devBuild, cfg, false⟩
  else
    match fetch with
    | .error e => ⟨.error (.fetchFailed e), cfg, true⟩
    | .ok latest =>
      let avail : Bool := decide (semverCompare latest version > 0)
      ⟨.ok avail, { cfg with updateAvailable := avail, lastUpdateCheck := now }, true⟩

/-- `UpdateCheckInterval` (24 hours), in seconds. -/
def updateCheckInterval : Nat := 24 * 60 * 60

/-- One minute, in seconds. -/
def minuteSeconds : Nat := 60

/-- Result of one auto-checker tick: the stored configuration
afterwards, whether `CheckForUpdate` was invoked, and whether an
error was logged (the tick has no error channel at all). -/
structure TickOutcome where
  cfg : Configuration
  checkCalled : Bool
  errorLogged : Bool
  deriving Repr, DecidableEq

/-- The `check` helper run on every auto-checker tick,
src/internal/app/update_test.go lines 614-628: re-read the stored
configuration, and if `updateNotifications` holds and the time since
`lastUpdateCheck` is at least `UpdateCheckInterval - time.Minute`,
call `CheckForUpdate`; an error from the check is logged and
swallowed. -/
def autoTick (version : String) (semverCompare : String → String → Int)
    (fetch : Except String String) (now : Nat) (cfg : Configuration) : TickOutcome :=
  if cfg.updateNotifications
      && decide (updateCheckInterval - minuteSeconds ≤ now - cfg.lastUpdateCheck) then
    let o := checkForUpdate version semverCompare fetch now cfg
    match o.result with
    | .error _ => ⟨o.cfg, true, true⟩
    | .ok _ => ⟨o.cfg, true, false⟩
  else ⟨cfg, false, false⟩

/-- A migration step, from src/unnamed/part_011: an id, a human
readable description, and the operation to execute. The operation is
a state transform over the transaction state `σ` that may fail. -/
structure Migration (σ : Type) where
  id : String
  desc : String
  up : σ → Except String σ

/-- Errors of the migration runner and its `Migrate` wrapper. -/
inductive MigErr where
  | unknownVersion (v : String)
  | stepFailed (id : String) (msg : String)
  deriving Repr, DecidableEq

/-- Result of `Migrator.Run`: the transaction state, the returned
final version, the ids of the steps whose `up` ran successfully (in
order), and the error if any. -/
structure RunOutcome (σ : Type) where
  state : σ
  finalVersion : String
  applied : List String
  err : Option MigErr

/-- The apply loop of `Migrator.Run` (src/unnamed/part_011 lines
63-74): apply each remaining step in order, updating the final
version to each step id after its `up` succeeds; stop at the first
failure, returning the version reached so far. -/
def runFrom (s : σ) (v : String) : List (Migration σ) → RunOutcome σ
  | [] => ⟨s, v, [], none⟩
  | step :: rest =>
    match step.up s with
    | .error e => ⟨s, v, [], some (.stepFailed step.id e)⟩
    | .ok s1 =>
      let o := runFrom s1 step.id rest
      ⟨o.state, o.finalVersion, step.id :: o.applied, o.err⟩

/-- `Migrator.Run` from src/unnamed/part_011 lines 42-76: an empty
current version starts from the first declared step; otherwise the
first declared step whose id equals the current version determines
the start (the step after it); an id not found in the declared list
is an unknown-schema-version error. -/
def migratorRun (steps : List (Migration σ)) (s : σ) (currentVersion : String) :
    RunOutcome σ :=
  if currentVersion = "" then runFrom s "" steps
  else
    match steps.findIdx? (fun st => st.id == currentVersion) with
    | none => ⟨s, currentVersion, [], some (.unknownVersion currentVersion)⟩
    | some i => runFrom s currentVersion (steps.drop (i + 1))

/-- `Migrator.New` from src/unnamed/part_011 lines 25-30: an empty
step list. -/
def migratorNew (σ : Type) : List (Migration σ) := []

/-- `Migrator.Add` from src/unnamed/part_011 lines 32-40: append the
step to the list. `Add` returns nothing, so it has no error channel. -/
def migratorAdd (m : List (Migration σ)) (id desc : String)
    (op : σ → Except String σ) : List (Migration σ) :=
  m ++ [⟨id, desc, op⟩]

/-- The database state seen by the migration transaction: the
`"version"` key of the config partition (`none` models NotFound) and
the rest of the database content. -/
structure DBState (σ : Type) where
  schemaVersion : Option String
  data : σ
  deriving Repr, DecidableEq

/-- Result of `Migrate`: the database state after the transaction
commits or aborts, the ids applied, and the error if any. -/
structure MigrateOutcome (σ : Type) where
  db : DBState σ
  applied : List String
  err : Option MigErr

/-- `Migrate` from src/internal/platform/database/migration.go lines
49-76: inside one `db.Update` transaction, read the current
`"version"` (NotFound reads as the empty string), run the declared
steps, and write the returned final version back. A failing callback
aborts the transaction, so on error the database is unmodified. -/
def migrate (steps : List (Migration (DBState σ))) (db : DBState σ) :
    MigrateOutcome σ :=
  let currentVer := db.schemaVersion.getD ""
  let o := migratorRun steps db currentVer
  match o.err with
  | some e => ⟨db, o.applied, some e⟩
  | none => ⟨{ o.state with schemaVersion := some o.finalVersion }, o.applied, none⟩

/-- The per-process application state relevant to the lifecycle
controller and the update orchestrator, from src/unnamed/part_007
(`App`) and src/internal/app/update_test.go. `α` is the type of
cleanup hooks and update payloads; `uOnceDone` models the consumed
state of the `uOnce` latch, `cleanupDone` that of `cleanupOnce`. -/
structure AppState (α : Type) where
  version : String
  cfg : Configuration
  uOnceDone : Bool
  cleanups : List α
  cleanupDone : Bool
  postCleanup : Option α
  deriving Repr, DecidableEq

/-- Errors of the lifecycle controller. -/
inductive LCErr where
  | postCleanupAlreadySet
  deriving Repr, DecidableEq

/-- `App.SetPostCleanup` from src/unnamed/part_007 lines 188-198: if
the hook is already set return `ErrPostCleanupSet` and leave it
unchanged, otherwise store the given hook and return no error. -/
def setPostCleanup (s : AppState α) (f : α) : AppState α × Option LCErr :=
  match s.postCleanup with
  | some _ => (s, some .postCleanupAlreadySet)
  | none => ({ s with postCleanup := some f }, none)

/-- `App.AddCleanup` from src/unnamed/part_007 lines 181-183. -/
def addCleanup (s : AppState α) (f : α) : AppState α :=
  { s with cleanups := s.cleanups ++ [f] }

/-- `App.Close` from src/unnamed/part_007 lines 161-179: a second
call is a no-op (`cleanupOnce`); otherwise the registered cleanups
run in reverse insertion order and then the post-cleanup hook, if
set, is invoked. Returns the state, the cleanups invoked in order,
and the post-cleanup hook invoked, if any. -/
def closeApp (s : AppState α) : AppState α × List α × Option α :=
  if s.cleanupDone then (s, [], none)
  else ({ s with cleanupDone := true }, s.cleanups.reverse, s.postCleanup)

/-- What one `DeferUpdate` or `DetachUpdate` call did: whether the
preparation (`uPrep`) body ran to success, whether a payload was
registered as the post-cleanup hook, and whether a detached launch
was performed. -/
structure UpdEvents where
  prepped : Bool
  registered : Bool
  launched : Bool
  deriving Repr, DecidableEq

/-- The events of a call that did nothing. -/
def noEvents : UpdEvents := ⟨false, false, false⟩

/-- `App.DeferUpdate` from src/internal/app/update_test.go lines
694-716: under the `uOnce` latch, run `uPrep`, and on success
register the payload via `SetPostCleanup` (whose error the code
discards). A call finding the latch consumed does nothing and
returns no error. -/
def deferUpdate (s : AppState α) (payload : α) :
    AppState α × Option UpdErr × UpdEvents :=
  if s.uOnceDone then (s, none, noEvents)
  else
    let s1 := { s with uOnceDone := true }
    match uPrep s1.version s1.cfg with
    | .error e => (s1, some e, noEvents)
    | .ok cfg1 =>
      let s2 := { s1 with cfg := cfg1 }
      match setPostCleanup s2 payload with
      | (s3, none) => (s3, none, ⟨true, true, false⟩)
      | (s3, some _) => (s3, none, ⟨true, false, false⟩)

/-- `App.DetachUpdate` from src/internal/app/update_test.go lines
723-744: under the same `uOnce` latch, run `uPrep`, and on success
launch the detached update pipeline (`runUpdateDetached`), whose
possible failure is the `launch` parameter. A call finding the latch
consumed does nothing and returns no error. -/
def detachUpdate (s : AppState α) (launch : Option String) :
    AppState α × Option UpdErr × UpdEvents :=
  if s.uOnceDone then (s, none, noEvents)
  else
    let s1 := { s with uOnceDone := true }
    match uPrep s1.version s1.cfg with
    | .error e => (s1, some e, noEvents)
    | .ok cfg1 =>
      let s2 := { s1 with cfg := cfg1 }
      match launch with
      | some msg => (s2, some (.launchFailed msg), ⟨true, false, true⟩)
      | none => (s2, none, ⟨true, false, true⟩)

/-- One call in a sequence of `DeferUpdate` or `DetachUpdate` calls. -/
inductive UpdCall (α : Type) where
  | deferCall (payload : α)
  | detachCall (launch : Option String)
  deriving Repr, DecidableEq

/-- Dispatch one call. -/
def updCall (s : AppState α) : UpdCall α → AppState α × Option UpdErr × UpdEvents
  | .deferCall p => deferUpdate s p
  | .detachCall l => detachUpdate s l

/-- Run a sequence of calls, recording each call outcome. -/
def updTrace (s : AppState α) : List (UpdCall α) → List (Option UpdErr × UpdEvents)
  | [] => []
  | c :: cs =>
    let r := updCall s c
    (r.2.1, r.2.2) :: updTrace r.1 cs

/-- How many payload registrations and launches one call performed. -/
def eventCount (ev : UpdEvents) : Nat :=
  (if ev.registered then 1 else 0) + (if ev.launched then 1 else 0)

/-- Total payload registrations and launches over a trace. -/
def traceEventCount (tr : List (Option UpdErr × UpdEvents)) : Nat :=
  (tr.map (fun r => eventCount r.2)).sum

/-- A restart-status response body. -/
structure RestartStatus where
  restarted : Bool
  updated : Bool
  deriving Repr, DecidableEq

/-- The `GET /settings/restart-status` handler from
src/internal/platform/http/server/server.go lines 218-235:
`restarted` is `StartCounter > 0`, `updated` is
`PreUpdateVersion != "" && PreUpdateVersion != a.Version`. -/
def restartStatusHandler (cfg : Configuration) (version : String) : RestartStatus :=
  ⟨decide (cfg.startCounter > 0),
   cfg.preUpdateVersion != "" && cfg.preUpdateVersion != version⟩

/-! Sample values for concrete evaluations. -/

/-- A sample stored configuration: defaults from the initial schema,
with `updateAvailable` set and an empty `preUpdateVersion`. -/
def cfgSample : Configuration :=
  ⟨"WARN", 8080, "localhost", 0, true, 0, true, "", 0⟩

/-! Theorems about the claims. -/

/-- C1: evaluating `uPrep` at running version "v1.0.0" on a stored
configuration whose `preUpdateVersion` is empty: the preparation
succeeds and performs one KVS update that sets `updateAvailable` to
false, but the stored `preUpdateVersion` afterwards is still the
empty string, not the running version "v1.0.0". The function body
writes only `updateAvailable`, although its own doc comment says it
also records the current version for the post-restart comparison. -/
theorem uPrep_leaves_preUpdateVersion :
    uPrep "v1.0.0" cfgSample = .ok { cfgSample with updateAvailable := false }
    ∧ (uPrep "v1.0.0" cfgSample).toOption.map Configuration.preUpdateVersion = some ""
    ∧ ("" : String) ≠ "v1.0.0" := by decide

/-- C5: when the running version is non-empty and not the
development sentinel, and the release source returns `latest`
without error, `CheckForUpdate` returns exactly the boolean
`semverCompare latest version > 0` and, in a single KVS update, sets
`updateAvailable` to that boolean and `lastUpdateCheck` to the
current time, leaving every other configuration field unchanged. -/
theorem checkForUpdate_success (version latest : String)
    (semverCompare : String → String → Int) (now : Nat) (cfg : Configuration)
    (hv : version ≠ "") (hd : version ≠ devSentinel) :
    checkForUpdate version semverCompare (.ok latest) now cfg
      = ⟨.ok (decide (semverCompare latest version > 0)),
         { cfg with updateAvailable := decide (semverCompare latest version > 0),
                    lastUpdateCheck := now },
         true⟩ := by
  simp [checkForUpdate, hv, hd]

theorem checkForUpdate_success_witness :
    ("v1.0.0" : String) ≠ ""
    ∧ ("v1.0.0" : String) ≠ devSentinel
    ∧ checkForUpdate "v1.0.0" (fun _ _ => 1) (.ok "v1.1.0") 42 cfgSample
      = ⟨.ok true, { cfgSample with updateAvailable := true, lastUpdateCheck := 42 },
         true⟩ :=
  ⟨by decide, by decide,
   checkForUpdate_success "v1.0.0" "v1.1.0" (fun _ _ => 1) 42 cfgSample
     (by decide) (by decide)⟩

/-- C6: when the running version is the development sentinel,
`CheckForUpdate` fails with the typed `devBuild` error — a
constructor distinct from the network-failure error, so callers can
branch on it — does not contact the release source, and leaves the
stored configuration (in particular `updateAvailable` and
`lastUpdateCheck`) unchanged. -/
theorem checkForUpdate_devBuild (semverCompare : String → String → Int)
    (fetch : Except String String) (now : Nat) (cfg : Configuration) :
    checkForUpdate devSentinel semverCompare fetch now cfg
      = ⟨.error .devBuild, cfg, false⟩
    ∧ ∀ msg, (CheckErr.devBuild : CheckErr) ≠ .fetchFailed msg := by
  refine ⟨?_, by intro msg h; cases h⟩
  simp [checkForUpdate, devSentinel]

/-- C10: the `/settings/restart-status` handler reports
`updated = true` exactly when the stored `preUpdateVersion` is
non-empty and differs from the running version; in particular on a
configuration whose `preUpdateVersion` is the empty string (fresh
install, never written) it reports `updated = false`. -/
theorem restartStatus_updated_iff (cfg : Configuration) (version : String) :
    ((restartStatusHandler cfg version).updated = true
      ↔ (cfg.preUpdateVersion ≠ "" ∧ cfg.preUpdateVersion ≠ version))
    ∧ (restartStatusHandler { cfg with preUpdateVersion := "" } version).updated
        = false := by
  constructor
  · simp [restartStatusHandler]
  · simp [restartStatusHandler]

/-- The step list used for the C8 counterexample: the same id "a"
registered twice via `Migrator.Add`. -/
def dupAddSteps : List (Migration Nat) :=
  migratorAdd (migratorAdd (migratorNew Nat) "a" "first" (fun n => .ok (n + 1)))
    "a" "second" (fun n => .ok (n + 1))

/-- C8 counterexample: registering the id "a" twice is not rejected.
`Migrator.Add` has no error channel at all, and after the two calls
the constructed step list contains both steps with the duplicated
id, so the duplicate was accepted into the step list rather than
reported as an error. -/
theorem migratorAdd_duplicate_accepted :
    dupAddSteps.map (fun st => st.id) = ["a", "a"]
    ∧ dupAddSteps.length = 2 := by decide

/-- C8 amended: registering a step whose id is already present in
the step list is accepted: `Migrator.Add` unconditionally appends
the step, growing the list by one, and reports no error (its return
type has no error channel). -/
theorem migratorAdd_appends_duplicate (σ : Type) (m : List (Migration σ))
    (id desc : String) (op : σ → Except String σ)
    (_hdup : id ∈ m.map (fun st => st.id)) :
    (migratorAdd m id desc op).map (fun st => st.id)
      = m.map (fun st => st.id) ++ [id]
    ∧ (migratorAdd m id desc op).length = m.length + 1 := by
  simp [migratorAdd]

theorem migratorAdd_appends_duplicate_witness :
    ("a" ∈ (migratorAdd (migratorNew Nat) "a" "first" (fun n => .ok n)).map
        (fun st => st.id))
    ∧ ((migratorAdd (migratorAdd (migratorNew Nat) "a" "first" (fun n => .ok n))
          "a" "second" (fun n => .ok n)).map (fun st => st.id)
        = (migratorAdd (migratorNew Nat) "a" "first" (fun n => .ok n)).map
            (fun st => st.id) ++ ["a"]
       ∧ (migratorAdd (migratorAdd (migratorNew Nat) "a" "first" (fun n => .ok n))
            "a" "second" (fun n => .ok n)).length
          = (migratorAdd (migratorNew Nat) "a" "first" (fun n => .ok n)).length + 1) :=
  ⟨by decide,
   migratorAdd_appends_duplicate Nat
     (migratorAdd (migratorNew Nat) "a" "first" (fun n => .ok n))
     "a" "second" (fun n => .ok n) (by decide)⟩

/-- Helper: when no declared step carries the current version id,
the id search of `Migrator.Run` finds nothing. -/
theorem findIdx_none_of_unknown (steps : List (Migration σ)) (v : String)
    (hunk : ∀ st ∈ steps, st.id ≠ v) :
    steps.findIdx? (fun st => st.id == v) = none := by
  rw [List.findIdx?_eq_none_iff]
  intro st hst
  simpa using hunk st hst

/-- C4: for a stored, non-empty schema version that is not the id of
any declared step, `Migrator.Run` fails with the unknown-version
error, applies no step, and returns the stored version unchanged;
the `Migrate` transaction therefore aborts and the database state is
returned unmodified. -/
theorem migrate_unknownVersion (σ : Type) (steps : List (Migration (DBState σ)))
    (db : DBState σ) (v : String) (hdb : db.schemaVersion = some v) (hv : v ≠ "")
    (hunk : ∀ st ∈ steps, st.id ≠ v) :
    migratorRun steps db v = ⟨db, v, [], some (.unknownVersion v)⟩
    ∧ migrate steps db = ⟨db, [], some (.unknownVersion v)⟩ := by
  have hrun : migratorRun steps db v = ⟨db, v, [], some (.unknownVersion v)⟩ := by
    rw [migratorRun, if_neg hv, findIdx_none_of_unknown steps v hunk]
  refine ⟨hrun, ?_⟩
  rw [migrate, hdb]
  simp [hrun]

theorem migrate_unknownVersion_witness :
    ((⟨some "v9", 5⟩ : DBState Nat).schemaVersion = some "v9")
    ∧ ("v9" : String) ≠ ""
    ∧ (∀ st ∈ ([⟨"v1", "initial", fun n => .ok n⟩] : List (Migration (DBState Nat))),
        st.id ≠ "v9")
    ∧ (migratorRun [⟨"v1", "initial", fun n => .ok n⟩] (⟨some "v9", 5⟩ : DBState Nat) "v9"
        = ⟨⟨some "v9", 5⟩, "v9", [], some (.unknownVersion "v9")⟩
       ∧ migrate [⟨"v1", "initial", fun n => .ok n⟩] (⟨some "v9", 5⟩ : DBState Nat)
        = ⟨⟨some "v9", 5⟩, [], some (.unknownVersion "v9")⟩) :=
  ⟨rfl, by decide, by decide,
   migrate_unknownVersion Nat [⟨"v1", "initial", fun n => .ok n⟩] ⟨some "v9", 5⟩ "v9"
     rfl (by decide) (by decide)⟩

/-- The step list used for the C3 counterexample: the id of the last
declared step ("a") also occurs as the first step, which
`Migrator.Add` accepts. Every step increments the state. -/
def dupRunSteps : List (Migration Nat) :=
  [⟨"a", "first", fun n => .ok (n + 1)⟩,
   ⟨"b", "second", fun n => .ok (n + 1)⟩,
   ⟨"a", "third", fun n => .ok (n + 1)⟩]

/-- C3 counterexample: with the declared list `dupRunSteps`, the
stored version "a" equals the id of the last declared step, yet
running `Migrator.Run` applies the second and third steps (their
`up` functions run, changing the state from 0 to 2) instead of
applying nothing: the id search matches the first occurrence of
"a". -/
theorem migratorRun_rerun_applies_duplicate :
    (dupRunSteps.map (fun st => st.id)).getLast? = some "a"
    ∧ (migratorRun dupRunSteps 0 "a").applied = ["b", "a"]
    ∧ (migratorRun dupRunSteps 0 "a").state = 2 := by
  refine ⟨by decide, ?_, ?_⟩ <;> rfl

/-- Helper: when every step of `ys` fails the id test and the single
trailing step passes it, the id search of `Migrator.Run` returns the
last position. -/
theorem findIdx_last_of_fresh (ys : List (Migration σ)) (lastStep : Migration σ)
    (v : String) (hlast : lastStep.id = v) (hearlier : ∀ st ∈ ys, st.id ≠ v) :
    (ys ++ [lastStep]).findIdx? (fun st => st.id == v) = some ys.length := by
  rw [List.findIdx?_append, findIdx_none_of_unknown ys v hearlier]
  simp [List.findIdx?, hlast]

/-- C3 amended: provided the last declared step's id is non-empty
and occurs at no earlier position of the declared list (as when the
ids are pairwise distinct), a store whose schema version equals that
id is left untouched by another run: `Migrator.Run` applies no
step's `up` and returns the current version, and `Migrate` commits a
database state equal to the one it read. -/
theorem migrate_upToDate_noop (σ : Type) (steps : List (Migration (DBState σ)))
    (db : DBState σ) (v : String) (hv : v ≠ "")
    (hlast : (steps.map (fun st => st.id)).getLast? = some v)
    (hearlier : ∀ st ∈ steps.dropLast, st.id ≠ v)
    (hdb : db.schemaVersion = some v) :
    migratorRun steps db v = ⟨db, v, [], none⟩
    ∧ migrate steps db = ⟨db, [], none⟩ := by
  obtain ⟨ys, lastStep, hsteps⟩ : ∃ ys lastStep, steps = ys ++ [lastStep] := by
    rcases List.eq_nil_or_concat steps with h | ⟨ys, lastStep, hsteps⟩
    · rw [h] at hlast
      simp at hlast
    · exact ⟨ys, lastStep, by simpa [List.concat_eq_append] using hsteps⟩
  have hlastId : lastStep.id = v := by
    rw [hsteps] at hlast
    simpa using hlast
  have hearlier2 : ∀ st ∈ ys, st.id ≠ v := by
    intro st hst
    apply hearlier
    rw [hsteps, List.dropLast_concat]
    exact hst
  have hfind : steps.findIdx? (fun st => st.id == v) = some ys.length := by
    rw [hsteps]
    exact findIdx_last_of_fresh ys lastStep v hlastId hearlier2
  have hdrop : steps.drop (ys.length + 1) = [] := by
    apply List.drop_eq_nil_of_le
    rw [hsteps]
    simp
  have hrun : migratorRun steps db v = ⟨db, v, [], none⟩ := by
    rw [migratorRun, if_neg hv, hfind]
    show runFrom db v (steps.drop (ys.length + 1)) = _
    rw [hdrop]
    rfl
  refine ⟨hrun, ?_⟩
  rw [migrate, hdb]
  simp only [Option.getD_some, hrun]
  have : ({ db with schemaVersion := some v } : DBState σ) = db := by
    cases db
    simp_all
  simp [this]

theorem migrate_upToDate_noop_witness :
    (("v2" : String) ≠ "")
    ∧ (([⟨"v1", "first", fun s => .ok s⟩, ⟨"v2", "second", fun s => .ok s⟩]
          : List (Migration (DBState Nat))).map (fun st => st.id)).getLast? = some "v2"
    ∧ (∀ st ∈ ([⟨"v1", "first", fun s => .ok s⟩, ⟨"v2", "second", fun s => .ok s⟩]
          : List (Migration (DBState Nat))).dropLast, st.id ≠ "v2")
    ∧ ((⟨some "v2", 7⟩ : DBState Nat).schemaVersion = some "v2")
    ∧ (migratorRun [⟨"v1", "first", fun s => .ok s⟩, ⟨"v2", "second", fun s => .ok s⟩]
        (⟨some "v2", 7⟩ : DBState Nat) "v2" = ⟨⟨some "v2", 7⟩, "v2", [], none⟩
       ∧ migrate [⟨"v1", "first", fun s => .ok s⟩, ⟨"v2", "second", fun s => .ok s⟩]
        (⟨some "v2", 7⟩ : DBState Nat) = ⟨⟨some "v2", 7⟩, [], none⟩) :=
  ⟨by decide, by decide, by decide, rfl,
   migrate_upToDate_noop Nat
     [⟨"v1", "first", fun s => .ok s⟩, ⟨"v2", "second", fun s => .ok s⟩]
     ⟨some "v2", 7⟩ "v2" (by decide) (by decide) (by decide) rfl⟩

/-- The stored configuration used in the C7 counterexample: update
notifications enabled and the last check 23 hours in the past. -/
def cfgTickSample : Configuration :=
  ⟨"WARN", 8080, "localhost", 0, true, 0, false, "", 0⟩

/-- C7 counterexample: at a tick exactly 23 hours after the last
check, with update notifications enabled, the auto-checker tick does
not call `CheckForUpdate`, although notifications hold and the
elapsed time is at least 23 hours: the code's threshold is
`UpdateCheckInterval - time.Minute` (23 hours 59 minutes), not 23
hours. -/
theorem autoTick_skips_at_23h :
    cfgTickSample.updateNotifications = true
    ∧ 23 * 3600 - cfgTickSample.lastUpdateCheck ≥ 23 * 3600
    ∧ (autoTick "v1.0.0" (fun _ _ => 1) (.ok "v1.1.0") (23 * 3600)
        cfgTickSample).checkCalled = false := by
  refine ⟨rfl, by decide, ?_⟩
  rfl

/-- Helper: the tick invokes `CheckForUpdate` exactly when the
notifications flag holds and the elapsed time reaches the code's
threshold. -/
theorem autoTick_checkCalled (version : String)
    (semverCompare : String → String → Int) (fetch : Except String String)
    (now : Nat) (cfg : Configuration) :
    (autoTick version semverCompare fetch now cfg).checkCalled
      = (cfg.updateNotifications
          && decide (updateCheckInterval - minuteSeconds ≤ now - cfg.lastUpdateCheck)) := by
  simp only [autoTick]
  by_cases hcond : (cfg.updateNotifications
      && decide (updateCheckInterval - minuteSeconds ≤ now - cfg.lastUpdateCheck)) = true
  · rw [if_pos hcond, hcond]
    cases hres : (checkForUpdate version semverCompare fetch now cfg).result <;> rfl
  · rw [if_neg hcond]
    simp only [Bool.not_eq_true] at hcond
    rw [hcond]

/-- C7 amended: on a tick, given the re-read stored configuration,
`CheckForUpdate` is called exactly when `updateNotifications` holds
and the time since `lastUpdateCheck` is at least 23 hours and 59
minutes (`UpdateCheckInterval` minus one minute of slack); and a
failing release-source fetch never propagates out of the tick — the
tick has no error result at all, the failure is only recorded as
logged, and the stored configuration is left unchanged. -/
theorem autoTick_spec (version : String) (semverCompare : String → String → Int)
    (fetch : Except String String) (now : Nat) (cfg : Configuration) :
    ((autoTick version semverCompare fetch now cfg).checkCalled = true
      ↔ (cfg.updateNotifications = true
         ∧ 23 * 3600 + 59 * 60 ≤ now - cfg.lastUpdateCheck))
    ∧ (∀ e : String,
        (autoTick version semverCompare (.error e) now cfg).cfg = cfg) := by
  constructor
  · have hth : updateCheckInterval - minuteSeconds = 23 * 3600 + 59 * 60 := by
      norm_num [updateCheckInterval, minuteSeconds]
    rw [autoTick_checkCalled, hth]
    simp
  · intro e
    have hcfg : (checkForUpdate version semverCompare (.error e) now cfg).cfg = cfg := by
      rw [checkForUpdate]
      split
      · rfl
      · split <;> rfl
    simp only [autoTick]
    split
    · cases hres : (checkForUpdate version semverCompare (.error e) now cfg).result <;>
        exact hcfg
    · rfl

/-- Helper: a `DeferUpdate` call finding the `uOnce` latch consumed
returns the state unchanged, no error and no events. -/
theorem deferUpdate_consumed (s : AppState α) (p : α) (h : s.uOnceDone = true) :
    deferUpdate s p = (s, none, noEvents) := by
  rw [deferUpdate, if_pos h]

/-- Helper: a `DetachUpdate` call finding the `uOnce` latch consumed
returns the state unchanged, no error and no events. -/
theorem detachUpdate_consumed (s : AppState α) (l : Option String)
    (h : s.uOnceDone = true) :
    detachUpdate s l = (s, none, noEvents) := by
  rw [detachUpdate, if_pos h]

/-- Helper: any call leaves the `uOnce` latch consumed. -/
theorem updCall_consumes (s : AppState α) (c : UpdCall α) :
    (updCall s c).1.uOnceDone = true := by
  by_cases h : s.uOnceDone = true
  · cases c with
    | deferCall p => rw [updCall, deferUpdate_consumed s p h]; exact h
    | detachCall l => rw [updCall, detachUpdate_consumed s l h]; exact h
  · simp only [Bool.not_eq_true] at h
    cases c with
    | deferCall p =>
      rw [updCall, deferUpdate, if_neg (by simp [h])]
      dsimp only
      cases hup : uPrep s.version s.cfg with
      | error e => rfl
      | ok cfg1 =>
        dsimp only
        cases hp : s.postCleanup with
        | none => simp [setPostCleanup, hp]
        | some f => simp [setPostCleanup, hp]
    | detachCall l =>
      rw [updCall, detachUpdate, if_neg (by simp [h])]
      dsimp only
      cases hup : uPrep s.version s.cfg with
      | error e => rfl
      | ok cfg1 =>
        cases l with
        | none => rfl
        | some msg => rfl

/-- Helper: once the latch is consumed, any further sequence of
calls records only no-op outcomes. -/
theorem updTrace_consumed (s : AppState α) (calls : List (UpdCall α))
    (h : s.uOnceDone = true) :
    updTrace s calls = calls.map (fun _ => ((none : Option UpdErr), noEvents)) := by
  induction calls generalizing s with
  | nil => rfl
  | cons c cs ih =>
    rw [updTrace]
    have hc : updCall s c = (s, none, noEvents) := by
      cases c with
      | deferCall p => exact deferUpdate_consumed s p h
      | detachCall l => exact detachUpdate_consumed s l h
    rw [hc]
    simp only [List.map_cons]
    exact congrArg (List.cons ((none : Option UpdErr), noEvents)) (ih s h)

/-- Helper: a first `DeferUpdate` call on a fresh latch with a
valid version and an unset post-cleanup slot consumes the latch,
runs `uPrep` (one KVS update clearing `updateAvailable`), and
registers the payload as the post-cleanup hook. -/
theorem deferUpdate_first (s : AppState α) (p : α) (h0 : s.uOnceDone = false)
    (hv : s.version ≠ "") (hd : s.version ≠ devSentinel)
    (hp : s.postCleanup = none) :
    deferUpdate s p =
      ({ s with uOnceDone := true, cfg := { s.cfg with updateAvailable := false },
                postCleanup := some p }, none, ⟨true, true, false⟩) := by
  rw [deferUpdate, if_neg (by simp [h0])]
  simp only [uPrep, if_neg hv, if_neg hd, setPostCleanup, hp]

/-- Helper: a first `DetachUpdate` call on a fresh latch with a
valid version consumes the latch, runs `uPrep`, and performs the
detached launch, returning its error if the launch failed. -/
theorem detachUpdate_first (s : AppState α) (l : Option String)
    (h0 : s.uOnceDone = false) (hv : s.version ≠ "") (hd : s.version ≠ devSentinel) :
    detachUpdate s l =
      ({ s with uOnceDone := true, cfg := { s.cfg with updateAvailable := false } },
       l.map UpdErr.launchFailed, ⟨true, false, true⟩) := by
  rw [detachUpdate, if_neg (by simp [h0])]
  cases l <;> simp [uPrep, hv, hd]

/-- C2: across any sequence of `DeferUpdate` and `DetachUpdate`
calls on the same `App` — starting from a fresh `uOnce` latch, a
valid (non-empty, non-development) running version and an unset
post-cleanup slot — the payload is registered or launched at most
once in total; every call after the first records no error and no
event (a no-op); a first `DeferUpdate` registers the payload (and
returns no error), and a first `DetachUpdate` launches it
(returning the launch failure if any). -/
theorem updatePayloadAtMostOnce (α : Type) (s0 : AppState α)
    (calls : List (UpdCall α)) (h0 : s0.uOnceDone = false)
    (hv : s0.version ≠ "") (hd : s0.version ≠ devSentinel)
    (hp : s0.postCleanup = none) :
    traceEventCount (updTrace s0 calls) ≤ 1
    ∧ (∀ r ∈ (updTrace s0 calls).drop 1, r = (none, noEvents))
    ∧ (∀ p cs, calls = .deferCall p :: cs →
        (updTrace s0 calls).head? = some (none, ⟨true, true, false⟩))
    ∧ (∀ l cs, calls = .detachCall l :: cs →
        (updTrace s0 calls).head? = some (l.map UpdErr.launchFailed, ⟨true, false, true⟩)) := by
  cases calls with
  | nil =>
    refine ⟨by simp [updTrace, traceEventCount], by simp [updTrace], ?_, ?_⟩
    · intro p cs hcs
      cases hcs
    · intro l cs hcs
      cases hcs
  | cons c cs =>
    have htail : ∀ s1 : AppState α, s1.uOnceDone = true →
        updTrace s1 cs = cs.map (fun _ => ((none : Option UpdErr), noEvents)) :=
      fun s1 h1 => updTrace_consumed s1 cs h1
    have htailCount : traceEventCount
        (cs.map (fun _ => ((none : Option UpdErr), noEvents))) = 0 := by
      simp [traceEventCount, eventCount, noEvents, List.map_map, Function.comp]
    have htailMem : ∀ r ∈ cs.map (fun _ => ((none : Option UpdErr), noEvents)),
        r = ((none : Option UpdErr), noEvents) := by
      intro r hr
      obtain ⟨x, _, hx⟩ := List.mem_map.mp hr
      exact hx.symm
    cases c with
    | deferCall p =>
      have hfirst := deferUpdate_first s0 p h0 hv hd hp
      have hdone : (deferUpdate s0 p).1.uOnceDone = true := by rw [hfirst]
      rw [show updTrace s0 (.deferCall p :: cs)
            = ((deferUpdate s0 p).2.1, (deferUpdate s0 p).2.2)
              :: updTrace (deferUpdate s0 p).1 cs from rfl]
      rw [htail _ hdone, hfirst]
      refine ⟨?_, ?_, ?_, ?_⟩
      · simp [traceEventCount, eventCount, noEvents, List.map_map, Function.comp]
      · intro r hr
        exact htailMem r (by simpa using hr)
      · intro q qs hcs
        rfl
      · intro l qs hcs
        cases hcs
    | detachCall l =>
      have hfirst := detachUpdate_first s0 l h0 hv hd
      have hdone : (detachUpdate s0 l).1.uOnceDone = true := by rw [hfirst]
      rw [show updTrace s0 (.detachCall l :: cs)
            = ((detachUpdate s0 l).2.1, (detachUpdate s0 l).2.2)
              :: updTrace (detachUpdate s0 l).1 cs from rfl]
      rw [htail _ hdone, hfirst]
      refine ⟨?_, ?_, ?_, ?_⟩
      · simp [traceEventCount, eventCount, noEvents, List.map_map, Function.comp]
      · intro r hr
        exact htailMem r (by simpa using hr)
      · intro q qs hcs
        cases hcs
      · intro l2 qs hcs
        rw [show l2 = l from by cases hcs; rfl]
        rfl

theorem updatePayloadAtMostOnce_witness :
    ((⟨"v1.0.0", cfgSample, false, [], false, none⟩ : AppState Nat).uOnceDone = false)
    ∧ (⟨"v1.0.0", cfgSample, false, [], false, none⟩ : AppState Nat).version ≠ ""
    ∧ (⟨"v1.0.0", cfgSample, false, [], false, none⟩ : AppState Nat).version ≠ devSentinel
    ∧ (⟨"v1.0.0", cfgSample, false, [], false, none⟩ : AppState Nat).postCleanup = none
    ∧ (traceEventCount (updTrace (⟨"v1.0.0", cfgSample, false, [], false, none⟩ : AppState Nat)
          [.deferCall 7, .detachCall none, .deferCall 8]) ≤ 1
       ∧ (∀ r ∈ (updTrace (⟨"v1.0.0", cfgSample, false, [], false, none⟩ : AppState Nat)
            [.deferCall 7, .detachCall none, .deferCall 8]).drop 1, r = (none, noEvents))
       ∧ (∀ p cs, ([.deferCall 7, .detachCall none, .deferCall 8] : List (UpdCall Nat))
            = .deferCall p :: cs →
            (updTrace (⟨"v1.0.0", cfgSample, false, [], false, none⟩ : AppState Nat)
              [.deferCall 7, .detachCall none, .deferCall 8]).head?
              = some (none, ⟨true, true, false⟩))
       ∧ (∀ l cs, ([.deferCall 7, .detachCall none, .deferCall 8] : List (UpdCall Nat))
            = .detachCall l :: cs →
            (updTrace (⟨"v1.0.0", cfgSample, false, [], false, none⟩ : AppState Nat)
              [.deferCall 7, .detachCall none, .deferCall 8]).head?
              = some (l.map UpdErr.launchFailed, ⟨true, false, true⟩))) :=
  ⟨rfl, by decide, by decide, rfl,
   updatePayloadAtMostOnce Nat ⟨"v1.0.0", cfgSample, false, [], false, none⟩
     [.deferCall 7, .detachCall none, .deferCall 8] rfl (by decide) (by decide) rfl⟩

/-- Apply `SetPostCleanup` for each hook of a list in order,
recording each call result. -/
def setPostCleanupAll (s : AppState α) : List α → AppState α × List (Option LCErr)
  | [] => (s, [])
  | f :: fs =>
    let r := setPostCleanup s f
    let r2 := setPostCleanupAll r.1 fs
    (r2.1, r.2 :: r2.2)

/-- Helper: once the post-cleanup slot holds a hook, any further
sequence of `SetPostCleanup` calls fails each time with
`PostCleanupAlreadySet` and leaves the state unchanged. -/
theorem setPostCleanupAll_occupied (s : AppState α) (f : α) (gs : List α)
    (hs : s.postCleanup = some f) :
    setPostCleanupAll s gs = (s, gs.map (fun _ => some LCErr.postCleanupAlreadySet)) := by
  induction gs with
  | nil => rfl
  | cons g gs ih =>
    rw [setPostCleanupAll]
    have hg : setPostCleanup s g = (s, some .postCleanupAlreadySet) := by
      rw [setPostCleanup, hs]
    rw [hg]
    simp [ih]

/-- C9: starting from an unset post-cleanup slot and a teardown not
yet run, the first `SetPostCleanup` call stores the given hook and
returns no error; every one of the following calls, whatever its
argument, returns `PostCleanupAlreadySet` and leaves the stored
hook unchanged; and teardown (`Close`) invokes exactly the hook set
by the first caller. -/
theorem setPostCleanup_once (α : Type) (s : AppState α) (f : α) (gs : List α)
    (hp : s.postCleanup = none) (hc : s.cleanupDone = false) :
    (setPostCleanup s f).2 = none
    ∧ (setPostCleanup s f).1.postCleanup = some f
    ∧ (setPostCleanupAll (setPostCleanup s f).1 gs).2
        = gs.map (fun _ => some LCErr.postCleanupAlreadySet)
    ∧ (setPostCleanupAll (setPostCleanup s f).1 gs).1.postCleanup = some f
    ∧ (closeApp (setPostCleanupAll (setPostCleanup s f).1 gs).1).2.2 = some f := by
  have hset : setPostCleanup s f = ({ s with postCleanup := some f }, none) := by
    rw [setPostCleanup, hp]
  have hall := setPostCleanupAll_occupied ({ s with postCleanup := some f }) f gs rfl
  refine ⟨by rw [hset], by rw [hset], ?_, ?_, ?_⟩
  · rw [hset]
    simp [hall]
  · rw [hset]
    simp [hall]
  · rw [hset]
    simp only [hall]
    rw [closeApp, if_neg (by simp [hc])]

theorem setPostCleanup_once_witness :
    ((⟨"v1.0.0", cfgSample, false, [], false, none⟩ : AppState Nat).postCleanup = none)
    ∧ (⟨"v1.0.0", cfgSample, false, [], false, none⟩ : AppState Nat).cleanupDone = false
    ∧ ((setPostCleanup (⟨"v1.0.0", cfgSample, false, [], false, none⟩ : AppState Nat) 7).2 = none
       ∧ (setPostCleanup (⟨"v1.0.0", cfgSample, false, [], false, none⟩ : AppState Nat) 7).1.postCleanup = some 7
       ∧ (setPostCleanupAll (setPostCleanup (⟨"v1.0.0", cfgSample, false, [], false, none⟩ : AppState Nat) 7).1 [8, 9]).2
          = [8, 9].map (fun _ => some LCErr.postCleanupAlreadySet)
       ∧ (setPostCleanupAll (setPostCleanup (⟨"v1.0.0", cfgSample, false, [], false, none⟩ : AppState Nat) 7).1 [8, 9]).1.postCleanup = some 7
       ∧ (closeApp (setPostCleanupAll (setPostCleanup (⟨"v1.0.0", cfgSample, false, [], false, none⟩ : AppState Nat) 7).1 [8, 9]).1).2.2 = some 7) :=
  ⟨rfl, rfl,
   setPostCleanup_once Nat ⟨"v1.0.0", cfgSample, false, [], false, none⟩ 7 [8, 9] rfl rfl⟩

end Sprout
